import Mathlib

/-!
Verification development for the SuperAgent frontend (a web chat client).

The definitions below are a shallow embedding of the repository's three
source files:

* `src/components/ChatInterface.tsx` — the conversation view, the
  `sendMessage` entry point and the streaming decoder `sendMessageStream`;
* `src/app/api/chat/route.ts` — the synchronous proxy handler;
* `src/app/api/chat/stream/route.ts` — the streaming proxy handler.

Bytes are modelled as `Nat` (each `< 256` in practice), JavaScript strings
as Lean `String`, and the ambient clock (`Date.now()`, `new Date()`) as
explicit parameters.  `JSON.parse` is modelled on the protocol's frame
grammar (flat JSON objects whose values are strings, the only shape the
backend contract in the spec's §6 emits); property access on the parsed
object follows JavaScript semantics (last duplicate key wins, absent keys
give `none`, `if (x)` truthiness on a string field means present and
non-empty).
-/

namespace SuperAgent

/-- The `sender` field of a `Message` in `ChatInterface.tsx`. -/
inductive Sender where
  | user
  | assistant
deriving DecidableEq, Repr

/-- The `Message` interface of `ChatInterface.tsx`: `id`, `content`,
`sender`, `timestamp` (modelled as a `Nat` tick) and optional `model`. -/
structure Message where
  id : String
  content : String
  sender : Sender
  timestamp : Nat
  model : Option String
deriving DecidableEq, Repr

/-! ### Text decoding: `new TextDecoder().decode(value)`

The component constructs a fresh `TextDecoder` for every chunk and calls
`decode` without the `stream` option, so each chunk is decoded in
isolation.  `utf8DecodeBytes` is the WHATWG UTF-8 decoder with
replacement (`U+FFFD`) on malformed input: an invalid or truncated
sequence emits one replacement character and decoding resumes at the
first byte not consumed by the failed sequence. -/

/-- The Unicode replacement character emitted for malformed UTF-8. -/
def replacementChar : Char := '�'

/-- Whether a byte is a UTF-8 continuation byte (`10xxxxxx`). -/
def isCont (b : Nat) : Bool := 0x80 ≤ b && b < 0xC0

/-- Lower bound allowed for the second byte, given lead byte `b` of a
three-byte sequence (excludes overlong forms and surrogates). -/
def lo3 (b : Nat) : Nat := if b = 0xE0 then 0xA0 else 0x80

/-- Upper bound (exclusive) allowed for the second byte, given lead byte
`b` of a three-byte sequence. -/
def hi3 (b : Nat) : Nat := if b = 0xED then 0xA0 else 0xC0

/-- Lower bound allowed for the second byte, given lead byte `b` of a
four-byte sequence (excludes overlong forms). -/
def lo4 (b : Nat) : Nat := if b = 0xF0 then 0x90 else 0x80

/-- Upper bound (exclusive) allowed for the second byte, given lead byte
`b` of a four-byte sequence (excludes code points above `U+10FFFF`). -/
def hi4 (b : Nat) : Nat := if b = 0xF4 then 0x90 else 0xC0

/-- UTF-8 decoding with replacement, as performed by a WHATWG
`TextDecoder` in its default non-fatal mode.  The `fuel` argument makes
the recursion structural; every step consumes at least one byte, so
`fuel = length` (as supplied by `utf8DecodeBytes`) never runs out. -/
def utf8DecodeFuel : Nat → List Nat → List Char
  | 0, _ => []
  | _, [] => []
  | fuel + 1, b :: rest =>
    if b < 0x80 then
      Char.ofNat b :: utf8DecodeFuel fuel rest
    else if b < 0xC2 then
      replacementChar :: utf8DecodeFuel fuel rest
    else if b < 0xE0 then
      match rest with
      | [] => [replacementChar]
      | b2 :: rest2 =>
        if isCont b2 then
          Char.ofNat ((b - 0xC0) * 64 + (b2 - 0x80)) :: utf8DecodeFuel fuel rest2
        else
          replacementChar :: utf8DecodeFuel fuel (b2 :: rest2)
    else if b < 0xF0 then
      match rest with
      | [] => [replacementChar]
      | b2 :: rest2 =>
        if lo3 b ≤ b2 && b2 < hi3 b then
          match rest2 with
          | [] => [replacementChar]
          | b3 :: rest3 =>
            if isCont b3 then
              Char.ofNat ((b - 0xE0) * 4096 + (b2 - 0x80) * 64 + (b3 - 0x80)) ::
                utf8DecodeFuel fuel rest3
            else
              replacementChar :: utf8DecodeFuel fuel (b3 :: rest3)
        else
          replacementChar :: utf8DecodeFuel fuel (b2 :: rest2)
    else if b < 0xF5 then
      match rest with
      | [] => [replacementChar]
      | b2 :: rest2 =>
        if lo4 b ≤ b2 && b2 < hi4 b then
          match rest2 with
          | [] => [replacementChar]
          | b3 :: rest3 =>
            if isCont b3 then
              match rest3 with
              | [] => [replacementChar]
              | b4 :: rest4 =>
                if isCont b4 then
                  Char.ofNat
                      ((b - 0xF0) * 262144 + (b2 - 0x80) * 4096 +
                        (b3 - 0x80) * 64 + (b4 - 0x80)) ::
                    utf8DecodeFuel fuel rest4
                else
                  replacementChar :: utf8DecodeFuel fuel (b4 :: rest4)
            else
              replacementChar :: utf8DecodeFuel fuel (b3 :: rest3)
        else
          replacementChar :: utf8DecodeFuel fuel (b2 :: rest2)
    else
      replacementChar :: utf8DecodeFuel fuel rest

/-- UTF-8 decoding with replacement of an entire byte list. -/
def utf8DecodeBytes (bs : List Nat) : List Char := utf8DecodeFuel bs.length bs

/-- A `TextDecoder` with default options strips one leading byte-order
mark from the input it decodes. -/
def stripBOM : List Nat → List Nat
  | 0xEF :: 0xBB :: 0xBF :: rest => rest
  | bs => bs

/-- The result of `new TextDecoder().decode(bytes)`, as the decoded
text's character sequence (a JavaScript string is modelled as its list
of characters). -/
def textDecode (bytes : List Nat) : List Char :=
  utf8DecodeBytes (stripBOM bytes)

/-! ### `JSON.parse` on protocol frames

The stream protocol (spec §6) sends frames that are flat JSON objects
with string values: `\x7b "content": …, "model": … \x7d` or
`\x7b "type": "end" \x7d`.  `parseJsonObj` is `JSON.parse` restricted to
that grammar, returning the object's fields in order; any other input is
a parse failure (`none`), which in the component lands in the
`catch` that logs and skips the line. -/

/-- The opening brace character. -/
def lbrace : Char := Char.ofNat 0x7b

/-- The closing brace character. -/
def rbrace : Char := Char.ofNat 0x7d

/-- JSON insignificant whitespace. -/
def isJsonWs (c : Char) : Bool := c = ' ' || c = '\t' || c = '\n' || c = '\r'

/-- Skip leading JSON whitespace. -/
def skipWs (cs : List Char) : List Char := cs.dropWhile isJsonWs

/-- The table of single-character JSON string escapes: the character
after the backslash paired with the character it denotes. -/
def escTable : List (Char × Char) :=
  [('"', '"'), ('\\', '\\'), ('/', '/'), ('n', '\n'), ('t', '\t'),
    ('r', '\r'), ('b', Char.ofNat 8), ('f', Char.ofNat 12)]

/-- Look up a single-character JSON string escape. -/
def escChar (e : Char) : Option Char :=
  (escTable.find? (fun p => p.1 == e)).map (fun p => p.2)

/-- Parse the body of a JSON string literal after the opening quote,
returning the decoded string and the rest of the input. -/
def strBody (acc : List Char) : List Char → Option (String × List Char)
  | [] => none
  | c :: rest =>
    if c = '"' then some (String.mk acc.reverse, rest)
    else if c = '\\' then
      match rest with
      | [] => none
      | e :: rest2 =>
        match escChar e with
        | some d => strBody (d :: acc) rest2
        | none => none
    else strBody (c :: acc) rest

/-- Parse a JSON string literal. -/
def parseStr : List Char → Option (String × List Char)
  | c :: rest => if c = '"' then strBody [] rest else none
  | [] => none

/-- Parse the members of a JSON object, after the opening brace of a
non-empty object; `fuel` bounds the number of members. -/
def parseMembers : Nat → List Char → List (String × String) →
    Option (List (String × String))
  | 0, _, _ => none
  | fuel + 1, cs, acc =>
    match parseStr (skipWs cs) with
    | none => none
    | some (k, cs1) =>
      match skipWs cs1 with
      | [] => none
      | c :: cs2 =>
        if c = ':' then
          match parseStr (skipWs cs2) with
          | none => none
          | some (v, cs3) =>
            match skipWs cs3 with
            | [] => none
            | d :: cs4 =>
              if d = ',' then parseMembers fuel cs4 (acc ++ [(k, v)])
              else if d = rbrace then
                if skipWs cs4 = [] then some (acc ++ [(k, v)]) else none
              else none
        else none

/-- `JSON.parse` on the protocol's frame grammar: a flat object with
string keys and string values; anything else fails.  The input is the
character sequence of the text after the `data: ` prefix. -/
def parseJsonObj (s : List Char) : Option (List (String × String)) :=
  match skipWs s with
  | [] => none
  | c :: cs =>
    if c = lbrace then
      match skipWs cs with
      | [] => none
      | c2 :: cs2 =>
        if c2 = rbrace then (if skipWs cs2 = [] then some [] else none)
        else parseMembers (s.length + 1) (c2 :: cs2) []
    else none

/-- JavaScript property access on a parsed object: the last binding of a
duplicated key wins, an absent key reads as `undefined` (`none`). -/
def jget (o : List (String × String)) (k : String) : Option String :=
  (o.reverse.find? (fun p => p.1 == k)).map (fun p => p.2)

/-- The `if (data.content)` truthiness test: a string field is truthy
exactly when it is present and non-empty. -/
def truthyContent (o : List (String × String)) : Option String :=
  match jget o "content" with
  | some c => if c = "" then none else some c
  | none => none

/-! ### The streaming decoder of `sendMessageStream`

The read loop decodes each received chunk with a fresh `TextDecoder`,
splits on `"\n"`, and for each `data: `-prefixed line parses the JSON
remainder: a frame with truthy `content` immediately publishes an
update-or-append of the assistant message (`setMessages`), a frame with
`type == "end"` breaks out of the inner line loop, and a parse failure
is logged and skipped.  `Date.now() + 1` (the assistant message id) and
`new Date()` are the parameters `aid` and `ts`. -/

/-- The default model label used when a frame has no truthy `model`
field (`data.model || "gemini-pro"`). -/
def defaultModel : String := "gemini-pro"

/-- The JavaScript `data.model || "gemini-pro"` fallback: an absent or
empty `model` field falls back to the default label. -/
def modelOrDefault : Option String → String
  | some m => if m = "" then defaultModel else m
  | none => defaultModel

/-- The `messageObj` built for a content frame inside the
`setMessages` updater. -/
def streamMsg (aid : String) (ts : Nat) (content : String)
    (model : Option String) : Message :=
  { id := aid, content := content, sender := .assistant, timestamp := ts,
    model := some (modelOrDefault model) }

/-- The `setMessages` updater for a content frame: find the message with
the assistant message id; replace it in place if present, else push the
new message at the end. -/
def publish (aid : String) (ts : Nat) (content : String)
    (model : Option String) (prev : List Message) : List Message :=
  let messageObj := streamMsg aid ts content model
  match prev.findIdx? (fun m => m.id == aid) with
  | some i => prev.set i messageObj
  | none => prev ++ [messageObj]

/-- The decoder state visible across chunks: the conversation message
list (the React `messages` state) and the `assistantMessage` local
accumulator of `sendMessageStream`. -/
structure DecState where
  messages : List Message
  assistantMessage : String
deriving DecidableEq, Repr

/-- The characters of the literal line prefix `data: `. -/
def dataPrefix : List Char := "data: ".data

/-- The inner `for (const line of lines)` loop, over lines given as
character sequences: lines that do not start with `data: ` are ignored;
for the others the remainder after the six prefix characters
(`line.slice(6)`) is parsed as JSON — truthy `content` publishes an
update, `type == "end"` breaks out of the loop, parse failure skips the
line. -/
def processLines (aid : String) (ts : Nat) :
    List (List Char) → DecState → DecState
  | [], st => st
  | line :: rest, st =>
    if dataPrefix.isPrefixOf line then
      match parseJsonObj (line.drop 6) with
      | some data =>
        match truthyContent data with
        | some c =>
          processLines aid ts rest
            { messages := publish aid ts c (jget data "model") st.messages,
              assistantMessage := c }
        | none =>
          if jget data "type" == some "end" then st
          else processLines aid ts rest st
      | none => processLines aid ts rest st
    else processLines aid ts rest st

/-- JavaScript `String.prototype.split` with separator `"\n"`: every
newline character starts a new segment, a trailing newline contributes a
trailing empty segment, and an empty input yields one empty segment. -/
def splitLines : List Char → List (List Char)
  | [] => [[]]
  | c :: rest =>
    if c = '\n' then [] :: splitLines rest
    else
      match splitLines rest with
      | l :: ls => (c :: l) :: ls
      | [] => [[c]]

/-- The lines a received chunk contributes:
`new TextDecoder().decode(value).split("\n")`. -/
def chunkLines (bytes : List Nat) : List (List Char) :=
  splitLines (textDecode bytes)

/-- Processing of one chunk of the response body. -/
def processChunk (aid : String) (ts : Nat) (st : DecState)
    (bytes : List Nat) : DecState :=
  processLines aid ts (chunkLines bytes) st

/-- The outer `while (true)` read loop over the chunks delivered by the
reader until `done`. -/
def runStream (aid : String) (ts : Nat) (chunks : List (List Nat))
    (st : DecState) : DecState :=
  chunks.foldl (processChunk aid ts) st

/-- The synthetic assistant message built in the `catch` block of
`sendMessageStream` for a transport error with message `e`. -/
def streamErrorMsg (errId : String) (ts : Nat) (e : String) : Message :=
  { id := errId, content := "Streaming error: " ++ e ++ ". Please try again.",
    sender := .assistant, timestamp := ts, model := none }

/-- The conversation after a whole `sendMessageStream` body starting
from messages `msgs`: the chunks read before the stream ended (or broke)
are processed in order; if reading then failed with error `e`
(`failure = some e`), the catch block appends one synthetic assistant
error message. -/
def sendMessageStream (aid errId : String) (ts : Nat)
    (chunks : List (List Nat)) (failure : Option String)
    (msgs : List Message) : List Message :=
  let st := runStream aid ts chunks { messages := msgs, assistantMessage := "" }
  match failure with
  | none => st.messages
  | some e => st.messages ++ [streamErrorMsg errId ts e]

/-- The assistant content the conversation view displays for the message
with id `aid` (the first — in fact only — message with that id). -/
def displayedContent (aid : String) (msgs : List Message) : Option String :=
  (msgs.find? (fun m => m.id == aid)).map (fun m => m.content)

/-! ### The `sendMessage` entry point and its busy guard -/

/-- The component state touched by `sendMessage`: the message list, the
input box contents, and the `isLoading` busy flag. -/
structure UIState where
  messages : List Message
  input : String
  isLoading : Bool
deriving DecidableEq, Repr

/-- What `sendMessage` did: rejected by the guard, or started one
request carrying `currentInput` as payload. -/
inductive SendAction where
  | rejected
  | started (payload : String)
deriving DecidableEq, Repr

/-- The synchronous prefix of `sendMessage` (up to the first `await`):
`if (!input.trim() || isLoading) return;` otherwise append the user
message, clear the input, set the busy flag and dispatch the request
with the captured `currentInput`. -/
def sendMessage (st : UIState) (now : Nat) : UIState × SendAction :=
  if st.input.trim == "" || st.isLoading then (st, .rejected)
  else
    let userMessage : Message :=
      { id := toString now, content := st.input.trim, sender := .user,
        timestamp := now, model := none }
    ({ messages := st.messages ++ [userMessage], input := "",
       isLoading := true }, .started st.input)

/-! ### The transport proxy routes

Both handlers forward the request body to the backend and relay the
result.  The backend's reply is abstracted as its `ok` flag, its
`status`, and its body (`bodyText` for text/JSON, `streamBytes` for the
byte stream); JSON round-tripping through `response.json()` followed by
`NextResponse.json(data)` is modelled as the identity on the body. -/

/-- The body of a proxy response: a relayed backend JSON body, a relayed
backend byte stream, or the uniform error envelope
`\x7b error, details \x7d` built in the catch block. -/
inductive ApiBody where
  | relayJson (data : String)
  | relayStream (bytes : List (List Nat))
  | errorEnvelope (error details : String)
deriving DecidableEq, Repr

/-- A proxy HTTP response: status, the headers the handlers set, and the
body. -/
structure ApiResponse where
  status : Nat
  contentType : String
  cacheControl : Option String
  connection : Option String
  body : ApiBody
deriving DecidableEq, Repr

/-- The `Error` message thrown on a non-success backend status:
`Backend responded with $status: $errorText`. -/
def backendErrorText (status : Nat) (errorText : String) : String :=
  "Backend responded with " ++ toString status ++ ": " ++ errorText

/-- The `POST` handler of `src/app/api/chat/route.ts`: on backend success
relay the backend JSON unchanged; on non-success status the thrown error
is caught and a 500 response with the `error`/`details` envelope is
returned. -/
def chatPOST (ok : Bool) (status : Nat) (bodyText : String) : ApiResponse :=
  if ok then
    { status := 200, contentType := "application/json", cacheControl := none,
      connection := none, body := .relayJson bodyText }
  else
    { status := 500, contentType := "application/json", cacheControl := none,
      connection := none,
      body := .errorEnvelope "Failed to process chat request"
        (backendErrorText status bodyText) }

/-- The `POST` handler of `src/app/api/chat/stream/route.ts`: on backend
success relay the backend byte stream unchanged with plain-text,
no-cache, keep-alive headers; on non-success status the thrown error is
caught and a 500 response with the `error`/`details` envelope is
returned. -/
def chatStreamPOST (ok : Bool) (status : Nat) (errorText : String)
    (streamBytes : List (List Nat)) : ApiResponse :=
  if ok then
    { status := 200, contentType := "text/plain",
      cacheControl := some "no-cache", connection := some "keep-alive",
      body := .relayStream streamBytes }
  else
    { status := 500, contentType := "application/json", cacheControl := none,
      connection := none,
      body := .errorEnvelope "Failed to start stream"
        (backendErrorText status errorText) }

/-! ### Concrete stream inputs used in the scenarios -/

/-- The UTF-8 bytes of an ASCII string (for ASCII text the code units
coincide with the code points). -/
def asciiBytes (s : String) : List Nat := s.data.map Char.toNat

/-- Scenario chunk 1 of the spec's §8:
`data: \x7b"content":"Hel"\x7d\n`. -/
def chunkHel : List Nat := asciiBytes "data: \x7b\"content\":\"Hel\"\x7d\n"

/-- Scenario chunk 2 of the spec's §8:
`data: \x7b"content":"Hello"\x7d\n`. -/
def chunkHello : List Nat := asciiBytes "data: \x7b\"content\":\"Hello\"\x7d\n"

/-- Scenario chunk 3 of the spec's §8: `data: \x7b"type":"end"\x7d\n`. -/
def chunkEnd : List Nat := asciiBytes "data: \x7b\"type\":\"end\"\x7d\n"

/-- A frame carrying the two-byte UTF-8 character `é` (`0xC3 0xA9`),
cut so that the chunk boundary falls between the two bytes: the first
chunk ends with the lead byte `0xC3`. -/
def splitChunk1 : List Nat := asciiBytes "data: \x7b\"content\":\"" ++ [0xC3]

/-- The second half of the cut frame: the continuation byte `0xA9`
followed by the closing quote, brace and newline. -/
def splitChunk2 : List Nat := [0xA9] ++ asciiBytes "\"\x7d\n"

/-- The `setMessages` updates triggered by a sequence of decoded content
frames, each given as its `content` value together with its `model`
field: successive applications of `publish` for frames 1, 2, …. -/
def publishSeq (aid : String) (ts : Nat)
    (frames : List (String × Option String)) (msgs : List Message) :
    List Message :=
  frames.foldl (fun ms f => publish aid ts f.1 f.2 ms) msgs

/-- A stream line that carries a decoded content frame: it bears the
`data: ` prefix, its remainder parses to an object whose `content`
field is truthy (present and non-empty, so the decoder publishes it),
and `f` records that frame's published content and `model` field. -/
def ContentFrameLine (line : List Char) (f : String × Option String) : Prop :=
  dataPrefix.isPrefixOf line = true ∧
  ∃ o, parseJsonObj (line.drop 6) = some o ∧
    truthyContent o = some f.1 ∧ jget o "model" = f.2

/-! ### Helper lemmas about the update-or-append publisher -/

/-- Publishing walks past a message whose id differs from the assistant
message id. -/
theorem publish_cons_ne (aid : String) (ts : Nat) (c : String)
    (mo : Option String) (m0 : Message) (ms : List Message)
    (h : (m0.id == aid) = false) :
    publish aid ts c mo (m0 :: ms) = m0 :: publish aid ts c mo ms := by
  unfold publish
  simp only [List.findIdx?_cons, h, if_false, List.findIdx?_start_succ]
  cases hfi : ms.findIdx? (fun m => m.id == aid) with
  | none => simp [hfi]
  | some i => simp [hfi]

/-- Publishing replaces in place a head message that carries the
assistant message id. -/
theorem publish_cons_eq (aid : String) (ts : Nat) (c : String)
    (mo : Option String) (m0 : Message) (ms : List Message)
    (h : (m0.id == aid) = true) :
    publish aid ts c mo (m0 :: ms) = streamMsg aid ts c mo :: ms := by
  unfold publish
  simp [List.findIdx?_cons, h]

/-- Publishing into a conversation that does not yet contain the
assistant message id appends the new message at the end. -/
theorem publish_fresh (aid : String) (ts : Nat) (c : String)
    (mo : Option String) (msgs : List Message)
    (h : ∀ m ∈ msgs, (m.id == aid) = false) :
    publish aid ts c mo msgs = msgs ++ [streamMsg aid ts c mo] := by
  induction msgs with
  | nil => rfl
  | cons m0 ms ih =>
    rw [publish_cons_ne aid ts c mo m0 ms (h m0 (by simp)),
      ih (fun m hm => h m (by simp [hm]))]
    simp

/-- Publishing again after a fresh append overwrites the appended
message in place. -/
theorem publish_overwrite (aid : String) (ts : Nat) (c c' : String)
    (mo mo' : Option String) (msgs : List Message)
    (h : ∀ m ∈ msgs, (m.id == aid) = false) :
    publish aid ts c' mo' (msgs ++ [streamMsg aid ts c mo]) =
      msgs ++ [streamMsg aid ts c' mo'] := by
  induction msgs with
  | nil =>
    simp only [List.nil_append]
    rw [publish_cons_eq aid ts c' mo' _ _ (by simp [streamMsg])]
  | cons m0 ms ih =>
    rw [List.cons_append,
      publish_cons_ne aid ts c' mo' m0 _ (h m0 (by simp)),
      ih (fun m hm => h m (by simp [hm]))]
    simp

/-- After a publish, the message displayed under the assistant message
id carries exactly the published content. -/
theorem displayedContent_publish (aid : String) (ts : Nat) (c : String)
    (mo : Option String) (msgs : List Message) :
    displayedContent aid (publish aid ts c mo msgs) = some c := by
  induction msgs with
  | nil =>
    simp [publish, displayedContent, streamMsg]
  | cons m0 ms ih =>
    cases h0 : (m0.id == aid) with
    | true =>
      rw [publish_cons_eq aid ts c mo m0 ms h0]
      simp [displayedContent, streamMsg]
    | false =>
      rw [publish_cons_ne aid ts c mo m0 ms h0]
      simpa [displayedContent, h0] using ih


/-- Chaining `publish` over a sequence of frames displays the last
frame's content. -/
theorem displayedContent_publishSeq (aid : String) (ts : Nat) (c : String)
    (mo : Option String) :
    ∀ (frames : List (String × Option String)) (msgs : List Message),
      frames.getLast? = some (c, mo) →
      displayedContent aid (publishSeq aid ts frames msgs) = some c := by
  intro frames
  induction frames with
  | nil => intro msgs h; simp at h
  | cons f fs ih =>
    intro msgs hlast
    cases fs with
    | nil =>
      have hf : f = (c, mo) := by simpa using hlast
      subst hf
      simpa [publishSeq] using displayedContent_publish aid ts c mo msgs
    | cons g gs =>
      rw [List.getLast?_cons_cons] at hlast
      simpa [publishSeq] using ih (publish aid ts f.1 f.2 msgs) hlast

/-- On a run of content-frame lines the decoder is exactly the chain of
`setMessages` publishes of those frames. -/
theorem processLines_contentFrames (aid : String) (ts : Nat)
    {lines : List (List Char)} {fs : List (String × Option String)}
    (h : List.Forall₂ ContentFrameLine lines fs) :
    ∀ st : DecState, (processLines aid ts lines st).messages =
      publishSeq aid ts fs st.messages := by
  induction h with
  | nil => intro st; rfl
  | @cons line f rest fs' hR htail ih =>
    intro st
    obtain ⟨hpre, o, hparse, htr, hmodel⟩ := hR
    have hstep : processLines aid ts (line :: rest) st =
        processLines aid ts rest
          { messages := publish aid ts f.1 f.2 st.messages,
            assistantMessage := f.1 } := by
      simp [processLines, hpre, hparse, htr, hmodel]
    rw [hstep, ih]
    simp [publishSeq]

/-- Processing the first scenario chunk publishes content `Hel`. -/
theorem processChunk_chunkHel (aid : String) (ts : Nat) (st : DecState) :
    processChunk aid ts st chunkHel =
      { messages := publish aid ts "Hel" none st.messages,
        assistantMessage := "Hel" } := rfl

/-- Processing the second scenario chunk publishes content `Hello`. -/
theorem processChunk_chunkHello (aid : String) (ts : Nat) (st : DecState) :
    processChunk aid ts st chunkHello =
      { messages := publish aid ts "Hello" none st.messages,
        assistantMessage := "Hello" } := rfl

/-- Processing the end-marker scenario chunk leaves the state
unchanged. -/
theorem processChunk_chunkEnd (aid : String) (ts : Nat) (st : DecState) :
    processChunk aid ts st chunkEnd = st := rfl

/-- C1: the decoder constructs a fresh `TextDecoder` per chunk, so the
two-byte character `é` cut across the chunk boundary decodes to a
replacement character in each chunk, the frame's JSON never parses, and
no content is ever published — whereas decoding the two chunks as one
maintained byte sequence publishes the frame with content `é`.  This
contradicts the claimed maintained text-decode state. -/
theorem splitUtf8CharAcrossChunksIsLost :
    runStream "1" 0 [splitChunk1, splitChunk2]
        { messages := [], assistantMessage := "" } =
      { messages := [], assistantMessage := "" } ∧
    textDecode splitChunk1 = ("data: \x7b\"content\":\"�").data ∧
    textDecode splitChunk2 = ("�\"\x7d\n").data ∧
    processLines "1" 0 (splitLines (textDecode (splitChunk1 ++ splitChunk2)))
        { messages := [], assistantMessage := "" } =
      { messages := [streamMsg "1" 0 "é" none], assistantMessage := "é" } :=
  ⟨rfl, rfl, rfl, rfl⟩

/-- C2 counterexample: the claim as stated fails for a frame whose
`content` field is present but empty.  After the decoder processes the
frames `Hel` then `""` (the second parses and has a `content` field),
the displayed content is still `Hel`, not the second frame's `content`
value `""` — the empty-content frame published nothing. -/
theorem emptyContentFrameRefutesReplacement :
    jget [("content", "")] "content" = some "" ∧
    parseJsonObj ((("data: \x7b\"content\":\"\"\x7d").data).drop 6) =
      some [("content", "")] ∧
    displayedContent "1"
        (processLines "1" 0
          [("data: \x7b\"content\":\"Hel\"\x7d").data,
            ("data: \x7b\"content\":\"\"\x7d").data]
          { messages := [], assistantMessage := "" }).messages = some "Hel" ∧
    ("Hel" : String) ≠ "" :=
  ⟨rfl, rfl, rfl, by decide⟩

/-- C2 (amended): for every sequence of decoded frames whose `content`
field is truthy (present and non-empty — the only frames the decoder
publishes), the assistant content displayed after the decoder processes
frame i equals the `content` value of frame i — replacement semantics,
never concatenation — whatever conversation state preceded the
sequence; a present-but-empty `content` field publishes no update and
the prior content remains. -/
theorem contentFrameReplacesDisplayedContent (aid : String) (ts : Nat)
    (st : DecState) (lines : List (List Char))
    (fs : List (String × Option String)) (c : String) (mo : Option String)
    (hframes : List.Forall₂ ContentFrameLine lines fs)
    (hlast : fs.getLast? = some (c, mo)) :
    displayedContent aid (processLines aid ts lines st).messages = some c := by
  rw [processLines_contentFrames aid ts hframes st]
  exact displayedContent_publishSeq aid ts c mo fs st.messages hlast

/-- Witness for C2 at the concrete line sequence carrying content `Hel`
then `Hello`. -/
theorem contentFrameReplacesDisplayedContentCheck :
    displayedContent "1"
        (processLines "1" 0
          [("data: \x7b\"content\":\"Hel\"\x7d").data,
            ("data: \x7b\"content\":\"Hello\"\x7d").data]
          { messages := [], assistantMessage := "" }).messages = some "Hello" :=
  contentFrameReplacesDisplayedContent "1" 0 _ _
    [("Hel", none), ("Hello", none)] "Hello" none
    (by
      refine .cons ⟨by decide, [("content", "Hel")], by decide, by decide,
        by decide⟩ ?_
      exact .cons ⟨by decide, [("content", "Hello")], by decide, by decide,
        by decide⟩ .nil)
    (by decide)

/-- C3: the three-chunk scenario `Hel`, `Hello`, end-marker, started
from any conversation not already containing the fresh assistant
message id, ends with exactly one assistant message appended, with
content `Hello` (the second frame updated the first frame's message in
place). -/
theorem helloScenarioCreatesOneAssistantMessage (aid : String) (ts : Nat)
    (msgs : List Message) (hfresh : ∀ m ∈ msgs, m.id ≠ aid) :
    (runStream aid ts [chunkHel, chunkHello, chunkEnd]
        { messages := msgs, assistantMessage := "" }).messages =
      msgs ++ [streamMsg aid ts "Hello" none] ∧
    displayedContent aid
        (runStream aid ts [chunkHel, chunkHello, chunkEnd]
          { messages := msgs, assistantMessage := "" }).messages =
      some "Hello" := by
  have hb : ∀ m ∈ msgs, (m.id == aid) = false := fun m hm =>
    beq_eq_false_iff_ne.mpr (hfresh m hm)
  have hrun : runStream aid ts [chunkHel, chunkHello, chunkEnd]
      { messages := msgs, assistantMessage := "" } =
      { messages := publish aid ts "Hello" none (publish aid ts "Hel" none msgs),
        assistantMessage := "Hello" } := by
    show processChunk aid ts (processChunk aid ts (processChunk aid ts
      { messages := msgs, assistantMessage := "" } chunkHel) chunkHello) chunkEnd = _
    rw [processChunk_chunkHel, processChunk_chunkHello, processChunk_chunkEnd]
  rw [hrun]
  refine ⟨?_, displayedContent_publish aid ts "Hello" none _⟩
  rw [publish_fresh aid ts "Hel" none msgs hb,
    publish_overwrite aid ts "Hel" "Hello" none none msgs hb]

/-- Witness for C3 at the empty starting conversation. -/
theorem helloScenarioCreatesOneAssistantMessageCheck :
    (runStream "1" 0 [chunkHel, chunkHello, chunkEnd]
        { messages := [], assistantMessage := "" }).messages =
      [] ++ [streamMsg "1" 0 "Hello" none] ∧
    displayedContent "1"
        (runStream "1" 0 [chunkHel, chunkHello, chunkEnd]
          { messages := [], assistantMessage := "" }).messages =
      some "Hello" :=
  helloScenarioCreatesOneAssistantMessage "1" 0 [] (by simp)

/-- C4: a parsed frame with `type == "end"` stops the processing of the
remaining lines of the current chunk (whatever they are), while the
outer read loop continues with the subsequent chunks. -/
theorem endFrameBreaksOnlyInnerLoop (aid : String) (ts : Nat) (st : DecState)
    (line : List Char) (o : List (String × String)) (rest : List (List Char))
    (ch : List Nat) (cs : List (List Nat))
    (hpre : dataPrefix.isPrefixOf line = true)
    (hparse : parseJsonObj (line.drop 6) = some o)
    (hcontent : truthyContent o = none)
    (hend : jget o "type" = some "end") :
    processLines aid ts (line :: rest) st = st ∧
    runStream aid ts (ch :: cs) st =
      runStream aid ts cs (processChunk aid ts st ch) := by
  refine ⟨?_, rfl⟩
  simp [processLines, hpre, hparse, hcontent, hend]

/-- Witness for C4: the end-marker line is followed by a content line in
the same chunk, and that line is not processed. -/
theorem endFrameBreaksOnlyInnerLoopCheck :
    processLines "1" 0 [("data: \x7b\"type\":\"end\"\x7d").data,
        ("data: \x7b\"content\":\"X\"\x7d").data]
      { messages := [], assistantMessage := "" } =
      { messages := [], assistantMessage := "" } ∧
    runStream "1" 0 [chunkEnd, chunkHel] { messages := [], assistantMessage := "" } =
      runStream "1" 0 [chunkHel]
        (processChunk "1" 0 { messages := [], assistantMessage := "" } chunkEnd) :=
  endFrameBreaksOnlyInnerLoop "1" 0 _ _ [("type", "end")] _ chunkEnd [chunkHel]
    (by decide) (by decide) (by decide) (by decide)

/-- C5: a `data: `-prefixed line whose remainder does not parse as JSON
is skipped: the decoder continues with the remaining lines and the
conversation state is not otherwise modified. -/
theorem malformedDataLineIsSkipped (aid : String) (ts : Nat) (st : DecState)
    (line : List Char) (rest : List (List Char))
    (hpre : dataPrefix.isPrefixOf line = true)
    (hparse : parseJsonObj (line.drop 6) = none) :
    processLines aid ts (line :: rest) st = processLines aid ts rest st := by
  simp [processLines, hpre, hparse]

/-- Witness for C5 at the concrete malformed line `data: not json`. -/
theorem malformedDataLineIsSkippedCheck :
    processLines "1" 0 [("data: not json").data,
        ("data: \x7b\"content\":\"ok\"\x7d").data]
      { messages := [], assistantMessage := "" } =
      processLines "1" 0 [("data: \x7b\"content\":\"ok\"\x7d").data]
        { messages := [], assistantMessage := "" } :=
  malformedDataLineIsSkipped "1" 0 _ _ _ (by decide) (by decide)

/-- C6: when the transport fails mid-stream after some chunks were
consumed, exactly one synthetic assistant-authored error message is
appended after everything already published, and nothing published is
discarded or rolled back. -/
theorem midStreamFailureAppendsSingleErrorMessage (aid errId : String)
    (ts : Nat) (chunks : List (List Nat)) (e : String) (msgs : List Message) :
    sendMessageStream aid errId ts chunks (some e) msgs =
      (runStream aid ts chunks
        { messages := msgs, assistantMessage := "" }).messages ++
        [streamErrorMsg errId ts e] ∧
    (streamErrorMsg errId ts e).sender = Sender.assistant ∧
    (streamErrorMsg errId ts e).content =
      "Streaming error: " ++ e ++ ". Please try again." :=
  ⟨rfl, rfl, rfl⟩

/-- C7: both proxy handlers answer a backend non-success with status 500
and the uniform error/details envelope, and relay a backend success
unchanged — the synchronous handler as JSON, the streaming handler as
the raw byte stream with plain-text, no-cache, keep-alive headers. -/
theorem proxyErrorEnvelopeAndRelay (status : Nat) (bodyText errorText : String)
    (streamBytes : List (List Nat)) :
    (chatPOST false status bodyText).status = 500 ∧
    (chatPOST false status bodyText).body =
      ApiBody.errorEnvelope "Failed to process chat request"
        (backendErrorText status bodyText) ∧
    (chatStreamPOST false status errorText streamBytes).status = 500 ∧
    (chatStreamPOST false status errorText streamBytes).body =
      ApiBody.errorEnvelope "Failed to start stream"
        (backendErrorText status errorText) ∧
    chatPOST true status bodyText =
      { status := 200, contentType := "application/json", cacheControl := none,
        connection := none, body := ApiBody.relayJson bodyText } ∧
    chatStreamPOST true status errorText streamBytes =
      { status := 200, contentType := "text/plain",
        cacheControl := some "no-cache", connection := some "keep-alive",
        body := ApiBody.relayStream streamBytes } :=
  ⟨rfl, rfl, rfl, rfl, rfl, rfl⟩

/-- C8: a line that does not begin with the `data: ` prefix leaves the
decoder state and the conversation untouched: processing it is the same
as processing the remaining lines from the same state. -/
theorem nonDataLineLeavesStateUnchanged (aid : String) (ts : Nat)
    (st : DecState) (line : List Char) (rest : List (List Char))
    (hpre : dataPrefix.isPrefixOf line = false) :
    processLines aid ts (line :: rest) st = processLines aid ts rest st := by
  simp [processLines, hpre]

/-- Witness for C8 at the concrete line `event: ping`. -/
theorem nonDataLineLeavesStateUnchangedCheck :
    processLines "1" 0 [("event: ping").data]
      { messages := [], assistantMessage := "" } =
      processLines "1" 0 [] { messages := [], assistantMessage := "" } :=
  nonDataLineLeavesStateUnchanged "1" 0 _ _ [] (by decide)

/-- C9: while the busy flag is set, invoking the send operation is a
no-op: the state is returned unchanged, no user message is appended and
no request is started. -/
theorem busySendIsRejected (st : UIState) (now : Nat)
    (hbusy : st.isLoading = true) :
    sendMessage st now = (st, SendAction.rejected) := by
  simp [sendMessage, hbusy]

/-- Witness for C9 at a concrete busy state. -/
theorem busySendIsRejectedCheck :
    sendMessage { messages := [], input := "hi", isLoading := true } 0 =
      ({ messages := [], input := "hi", isLoading := true },
        SendAction.rejected) :=
  busySendIsRejected _ 0 rfl

/-- C10: a frame that parses with a `content` field equal to the empty
string publishes nothing: the truthiness check fails, the conversation
is unchanged by that frame, and (when the frame is not also an
end-marker) processing simply continues with the remaining lines. -/
theorem emptyContentFramePublishesNothing (aid : String) (ts : Nat)
    (st : DecState) (line : List Char) (o : List (String × String))
    (rest : List (List Char))
    (hpre : dataPrefix.isPrefixOf line = true)
    (hparse : parseJsonObj (line.drop 6) = some o)
    (hempty : jget o "content" = some "") :
    processLines aid ts [line] st = st ∧
    (jget o "type" ≠ some "end" →
      processLines aid ts (line :: rest) st = processLines aid ts rest st) := by
  have ht : truthyContent o = none := by simp [truthyContent, hempty]
  constructor
  · by_cases hend : jget o "type" = some "end"
    · simp [processLines, hpre, hparse, ht, hend]
    · simp [processLines, hpre, hparse, ht, hend]
  · intro hne
    simp [processLines, hpre, hparse, ht, hne]

/-- Witness for C10 at the concrete frame with empty content. -/
theorem emptyContentFramePublishesNothingCheck :
    processLines "1" 0 [("data: \x7b\"content\":\"\"\x7d").data]
      { messages := [], assistantMessage := "" } =
      { messages := [], assistantMessage := "" } ∧
    (jget [("content", "")] "type" ≠ some "end" →
      processLines "1" 0 [("data: \x7b\"content\":\"\"\x7d").data]
        { messages := [], assistantMessage := "" } =
      processLines "1" 0 [] { messages := [], assistantMessage := "" }) :=
  emptyContentFramePublishesNothing "1" 0 _ _ [("content", "")] []
    (by decide) (by decide) (by decide)

end SuperAgent
